import Mathlib

/-!
Verification of the `argo` polymorphic JSON unmarshalling registries.

The Go package offers four registries that decode a JSON payload into one of
several registered variant types:

* `TypeRegistry` / `SyncTypeRegistry` (tag-mode): a configured list of tag
  field names is scanned over the parsed top-level object; the raw value of
  the last present tag, with enclosing double quotes stripped, is the
  discriminant, looked up in the catalog.
* `PropertyRegistry` / `SyncPropertyRegistry` (property-mode): the top-level
  field *names* are iterated (Go map range order, which is unspecified);
  the first field whose name is a registered discriminant supplies, as its
  raw value, the sub-payload decoded into a fresh instance.

The embedding below mirrors the Go source:

* a parsed payload (`map[string]json.RawMessage`) is an association list
  from field name to the raw text of the field value, read with `lookupStr`;
* a Go map from discriminant to `reflect.Type` is an association list with
  insert-or-overwrite update (`mapInsert`);
* `reflect.Type` descriptors are opaque: the whole development is
  parametric in a type `Typ` of descriptors;
* the final `json.Unmarshal(payload, value)` into the freshly allocated
  instance is an oracle `decode : Typ → _ → Bool` saying whether decoding
  the given source into an instance of the given descriptor succeeds; a
  successful `Unmarshal` is recorded as `UResult.ok descriptor source`,
  "a fresh instance of `descriptor` decoded from `source`";
* Go map iteration order in property-mode is an explicit `order` argument;
  faithful callers quantify over permutations of the parsed object's keys;
* `SyncTypeRegistry.Unmarshal` has a pointer receiver and assigns to
  `registry.Typetags` when it is empty, so its embedding returns the
  updated registry state next to the result.  The plain `TypeRegistry`
  variant has a value receiver: the same assignment hits a copy, so its
  embedding is a pure function of the registry value.
-/

/-- A parsed top-level JSON object, as produced by
`json.Unmarshal(payload, &guts)` with `guts : map[string]json.RawMessage`:
field name mapped to the raw text of its value.  `encoding/json` yields
distinct keys, so faithful instances have `Nodup` first components. -/
abbrev Guts := List (String × String)

/-- A payload as seen through the initial `json.Unmarshal` into a map:
either the bytes do not parse as a JSON object, or they yield the parsed
field map. -/
inductive Payload where
  | malformed : Payload
  | object (guts : Guts) : Payload
  deriving DecidableEq, Repr

/-- Errors returned by `Unmarshal`.  Every constructor stands for
`errors.JSONUnmarshalError.Wrap(cause)` with the corresponding cause:
`malformedPayload` wraps the JSON parse error of the top-level object,
`missingDiscriminant what` wraps `errors.ArgumentMissing.With(what)`,
`unknownDiscriminant value known` wraps
`errors.InvalidType.With(value, known)`, and `decodeFailed` wraps the error
of the final decode into the fresh instance. -/
inductive ArgoError where
  | malformedPayload : ArgoError
  | missingDiscriminant (what : String) : ArgoError
  | unknownDiscriminant (value : String) (known : List String) : ArgoError
  | decodeFailed : ArgoError
  deriving DecidableEq, Repr

/-- Result of an `Unmarshal` call.  `ok t src` is the success return
`value.(T)`: a freshly allocated instance of descriptor `t` whose fields
were decoded from `src` (`src` is the whole parsed object in tag-mode and
the matched field's raw value in property-mode). -/
inductive UResult (Typ Src : Type) where
  | ok (instType : Typ) (src : Src) : UResult Typ Src
  | fail (e : ArgoError) : UResult Typ Src
  deriving DecidableEq, Repr

/-- A `core.TypeCarrier` sample value, reduced to what `Add` uses of it:
`getType` is `class.GetType()` and `rtype` is `reflect.TypeOf(class)`. -/
structure TypeCarrier (Typ : Type) where
  getType : String
  rtype : Typ
  deriving DecidableEq, Repr

variable {Typ : Type}

/-- Go map read `m[k]`: the value stored under string key `k`, if any. -/
def lookupStr {α : Type} (k : String) : List (String × α) → Option α
  | [] => none
  | (a, b) :: rest => if k = a then some b else lookupStr k rest

/-- Go map assignment `m[k] = v`: overwrite the entry when the key exists,
otherwise add a new entry. -/
def mapInsert : List (String × Typ) → String → Typ → List (String × Typ)
  | [], k, v => [(k, v)]
  | (a, b) :: rest, k, v =>
      if a = k then (k, v) :: rest else (a, b) :: mapInsert rest k v

/-- The shared body of the four `Add` methods: for each class, append
`class.GetType()` to the ordered `types` list and store
`reflect.TypeOf(class)` in the catalog under that name. -/
def addAll (reg : List (String × Typ)) (types : List String) (cs : List (TypeCarrier Typ)) :
    List (String × Typ) × List String :=
  cs.foldl (fun acc c => (mapInsert acc.1 c.getType c.rtype, acc.2 ++ [c.getType])) (reg, types)

/-- `strings.Trim(s, "\"")`: remove all leading and all trailing double
quote characters. -/
def trimQuotes (s : String) : String :=
  String.mk (((s.data.dropWhile (fun c => c == '"')).reverse.dropWhile
    (fun c => c == '"')).reverse)

/-- The tag list actually scanned: `if len(registry.Typetags) == 0 {
registry.Typetags = []string{"type"} }`. -/
def effectiveTags (tags : List String) : List String :=
  if tags.isEmpty then ["type"] else tags

/-- The discriminant-extraction loop of tag-mode `Unmarshal`:
start from `objectType := ""` and, for each tag in order, overwrite
`objectType` with the trimmed raw value whenever the tag is present. -/
def scanTags (guts : Guts) (tags : List String) : String :=
  tags.foldl (fun objectType tag =>
    match lookupStr tag guts with
    | some value => trimQuotes value
    | none => objectType) ""

/-- The tail of tag-mode `Unmarshal` after the scan produced `objectType`:
empty discriminant is `ArgumentMissing` on the first tag, an unregistered
one is `InvalidType` with the ordered `types` list, and a registered one
decodes the whole original payload into a fresh instance. -/
def dispatchTag (decode : Typ → Guts → Bool) (reg : List (String × Typ))
    (types : List String) (tags : List String) (guts : Guts) (objectType : String) :
    UResult Typ Guts :=
  if objectType.length = 0 then
    .fail (.missingDiscriminant (tags.headD ""))
  else
    match lookupStr objectType reg with
    | some valueType =>
        if decode valueType guts then .ok valueType guts else .fail .decodeFailed
    | none => .fail (.unknownDiscriminant objectType types)

/-- `TypeRegistry` (tag-mode, not thread safe). -/
structure TypeRegistry (Typ : Type) where
  Typetags : List String
  registry : List (String × Typ)
  types : List String
  deriving DecidableEq, Repr

/-- `NewTypeRegistry(tags...)`. -/
def NewTypeRegistry (tags : List String) : TypeRegistry Typ :=
  { Typetags := tags, registry := [], types := [] }

/-- `TypeRegistry.Size` is `len(registry.registry)`. -/
def TypeRegistry.Size (r : TypeRegistry Typ) : Nat :=
  r.registry.length

/-- `TypeRegistry.Add(classes...)`. -/
def TypeRegistry.Add (r : TypeRegistry Typ) (cs : List (TypeCarrier Typ)) : TypeRegistry Typ :=
  let p := addAll r.registry r.types cs
  { r with registry := p.1, types := p.2 }

/-- `TypeRegistry.Unmarshal` (value receiver, hence pure in the registry):
default the tags, parse the payload, scan for the discriminant, dispatch. -/
def TypeRegistry.Unmarshal (decode : Typ → Guts → Bool) (r : TypeRegistry Typ)
    (payload : Payload) : UResult Typ Guts :=
  match payload with
  | .malformed => .fail .malformedPayload
  | .object guts =>
      let tags := effectiveTags r.Typetags
      dispatchTag decode r.registry r.types tags guts (scanTags guts tags)

/-- `SyncTypeRegistry` (tag-mode, thread safe); the `sync.RWMutex` has no
sequential content and is omitted. -/
structure SyncTypeRegistry (Typ : Type) where
  Typetags : List String
  registry : List (String × Typ)
  types : List String
  deriving DecidableEq, Repr

/-- `NewSyncTypeRegistry(tags...)`. -/
def NewSyncTypeRegistry (tags : List String) : SyncTypeRegistry Typ :=
  { Typetags := tags, registry := [], types := [] }

/-- `SyncTypeRegistry.Size`. -/
def SyncTypeRegistry.Size (r : SyncTypeRegistry Typ) : Nat :=
  r.registry.length

/-- `SyncTypeRegistry.Add(classes...)`. -/
def SyncTypeRegistry.Add (r : SyncTypeRegistry Typ) (cs : List (TypeCarrier Typ)) :
    SyncTypeRegistry Typ :=
  let p := addAll r.registry r.types cs
  { r with registry := p.1, types := p.2 }

/-- `SyncTypeRegistry.Unmarshal` (pointer receiver): the statement
`registry.Typetags = []string{"type"}` executed when no tags are configured
persists in the receiver, so the embedding returns the updated registry
state next to the result. -/
def SyncTypeRegistry.Unmarshal (decode : Typ → Guts → Bool) (r : SyncTypeRegistry Typ)
    (payload : Payload) : SyncTypeRegistry Typ × UResult Typ Guts :=
  let r1 := if r.Typetags.isEmpty then { r with Typetags := ["type"] } else r
  match payload with
  | .malformed => (r1, .fail .malformedPayload)
  | .object guts =>
      (r1, dispatchTag decode r1.registry r1.types r1.Typetags guts
        (scanTags guts r1.Typetags))

/-- `PropertyRegistry` (property-mode, not thread safe). -/
structure PropertyRegistry (Typ : Type) where
  registry : List (String × Typ)
  types : List String
  deriving DecidableEq, Repr

/-- `NewPropertyRegistry(tags...)` ignores its arguments. -/
def NewPropertyRegistry : PropertyRegistry Typ :=
  { registry := [], types := [] }

/-- `PropertyRegistry.Size`. -/
def PropertyRegistry.Size (r : PropertyRegistry Typ) : Nat :=
  r.registry.length

/-- `PropertyRegistry.Add(classes...)`. -/
def PropertyRegistry.Add (r : PropertyRegistry Typ) (cs : List (TypeCarrier Typ)) :
    PropertyRegistry Typ :=
  let p := addAll r.registry r.types cs
  { r with registry := p.1, types := p.2 }

/-- The `for property := range guts` loop shared by both property-mode
`Unmarshal` methods, iterating the keys in the given `order`: skip names
that are not registered discriminants; on the first registered name decode
its raw value into a fresh instance; if the loop ends, fail with
`ArgumentMissing` on the comma-joined ordered `types` list. -/
def propertyScan (decode : Typ → String → Bool) (reg : List (String × Typ))
    (types : List String) (guts : Guts) : List String → UResult Typ String
  | [] => .fail (.missingDiscriminant (String.intercalate ", " types))
  | property :: rest =>
      match lookupStr property reg with
      | none => propertyScan decode reg types guts rest
      | some valueType =>
          match lookupStr property guts with
          | some value =>
              if decode valueType value then .ok valueType value else .fail .decodeFailed
          | none => propertyScan decode reg types guts rest

/-- `PropertyRegistry.Unmarshal` (value receiver).  `order` models the
unspecified Go map iteration order over the parsed object; faithful
instantiations are permutations of `guts`' keys. -/
def PropertyRegistry.Unmarshal (decode : Typ → String → Bool) (r : PropertyRegistry Typ)
    (payload : Payload) (order : List String) : UResult Typ String :=
  match payload with
  | .malformed => .fail .malformedPayload
  | .object guts => propertyScan decode r.registry r.types guts order

/-- `SyncPropertyRegistry` (property-mode, thread safe); the mutex is
omitted. -/
structure SyncPropertyRegistry (Typ : Type) where
  registry : List (String × Typ)
  types : List String
  deriving DecidableEq, Repr

/-- `NewSyncPropertyRegistry(tags...)` ignores its arguments. -/
def NewSyncPropertyRegistry : SyncPropertyRegistry Typ :=
  { registry := [], types := [] }

/-- `SyncPropertyRegistry.Size`. -/
def SyncPropertyRegistry.Size (r : SyncPropertyRegistry Typ) : Nat :=
  r.registry.length

/-- `SyncPropertyRegistry.Add(classes...)`. -/
def SyncPropertyRegistry.Add (r : SyncPropertyRegistry Typ) (cs : List (TypeCarrier Typ)) :
    SyncPropertyRegistry Typ :=
  let p := addAll r.registry r.types cs
  { r with registry := p.1, types := p.2 }

/-- `SyncPropertyRegistry.Unmarshal` (pointer receiver, but it writes no
field, so the returned state is the receiver unchanged). -/
def SyncPropertyRegistry.Unmarshal (decode : Typ → String → Bool)
    (r : SyncPropertyRegistry Typ) (payload : Payload) (order : List String) :
    SyncPropertyRegistry Typ × UResult Typ String :=
  match payload with
  | .malformed => (r, .fail .malformedPayload)
  | .object guts => (r, propertyScan decode r.registry r.types guts order)

/-- View a plain tag-mode registry as the state of a `SyncTypeRegistry`
with the same three fields. -/
def syncOf (r : TypeRegistry Typ) : SyncTypeRegistry Typ :=
  { Typetags := r.Typetags, registry := r.registry, types := r.types }

/-- View a plain property-mode registry as a `SyncPropertyRegistry` with
the same fields. -/
def syncOfProperty (r : PropertyRegistry Typ) : SyncPropertyRegistry Typ :=
  { registry := r.registry, types := r.types }

/-- Spec-side characterization of the tag scan (what the spec asserts the
loop computes): the last tag name, in scan order, that is present as a
top-level field of the parsed payload. -/
def specLastMatchingTag (guts : Guts) : List String → Option String
  | [] => none
  | t :: rest =>
      match specLastMatchingTag guts rest with
      | some u => some u
      | none => if (lookupStr t guts).isSome then some t else none

/-- Catalog well-formedness: the ordered `types` list mentions exactly the
discriminants registered in the catalog map.  This is the invariant of all
registries reachable through `New...` and `Add`. -/
def CatalogWF (reg : List (String × Typ)) (types : List String) : Prop :=
  ∀ s, s ∈ types ↔ (lookupStr s reg).isSome

/-- Well-formedness of a tag-mode registry: see `CatalogWF`. -/
def TypeRegistry.WellFormed (r : TypeRegistry Typ) : Prop :=
  CatalogWF r.registry r.types

theorem string_length_eq_zero_iff (s : String) : s.length = 0 ↔ s = "" := by
  constructor
  · intro h
    cases s with
    | mk l =>
      cases l with
      | nil => rfl
      | cons a t => simp at h
  · rintro rfl
    rfl

theorem lookup_mapInsert_self (m : List (String × Typ)) (k : String) (v : Typ) :
    lookupStr k (mapInsert m k v) = some v := by
  induction m with
  | nil => simp [mapInsert, lookupStr]
  | cons p rest ih =>
    obtain ⟨a, b⟩ := p
    by_cases hak : a = k
    · rw [mapInsert, if_pos hak, lookupStr, if_pos rfl]
    · rw [mapInsert, if_neg hak, lookupStr, if_neg (fun hh => hak hh.symm)]
      exact ih

theorem lookup_mapInsert_ne (m : List (String × Typ)) (k : String) (v : Typ)
    (s : String) (h : s ≠ k) :
    lookupStr s (mapInsert m k v) = lookupStr s m := by
  induction m with
  | nil => simp [mapInsert, lookupStr, h]
  | cons p rest ih =>
    obtain ⟨a, b⟩ := p
    by_cases hak : a = k
    · rw [mapInsert, if_pos hak, lookupStr, if_neg h, lookupStr, if_neg (hak ▸ h)]
    · rw [mapInsert, if_neg hak, lookupStr, lookupStr]
      by_cases hsa : s = a
      · rw [if_pos hsa, if_pos hsa]
      · rw [if_neg hsa, if_neg hsa]
        exact ih

theorem length_mapInsert_of_isSome (m : List (String × Typ)) (k : String) (v : Typ)
    (hk : (lookupStr k m).isSome) :
    (mapInsert m k v).length = m.length := by
  induction m with
  | nil => simp [lookupStr] at hk
  | cons p rest ih =>
    obtain ⟨a, b⟩ := p
    by_cases hak : a = k
    · rw [mapInsert, if_pos hak, List.length_cons, List.length_cons]
    · rw [lookupStr, if_neg (fun hh => hak hh.symm)] at hk
      rw [mapInsert, if_neg hak, List.length_cons, List.length_cons, ih hk]

theorem scanTags_foldl_eq (guts : Guts) (tags : List String) (acc : String) :
    tags.foldl (fun objectType tag =>
      match lookupStr tag guts with
      | some value => trimQuotes value
      | none => objectType) acc =
    (match specLastMatchingTag guts tags with
     | none => acc
     | some t => trimQuotes ((lookupStr t guts).getD "")) := by
  induction tags generalizing acc with
  | nil => rfl
  | cons t rest ih =>
    rw [List.foldl_cons, ih, specLastMatchingTag]
    cases hr : specLastMatchingTag guts rest with
    | some u => simp
    | none =>
      cases hl : lookupStr t guts with
      | some v => simp [hl]
      | none => simp [hl]

theorem scanTags_eq_lastMatch (guts : Guts) (tags : List String) :
    scanTags guts tags =
      (match specLastMatchingTag guts tags with
       | none => ""
       | some t => trimQuotes ((lookupStr t guts).getD "")) :=
  scanTags_foldl_eq guts tags ""

theorem specLastMatchingTag_eq_none (guts : Guts) (tags : List String)
    (h : ∀ t ∈ tags, lookupStr t guts = none) :
    specLastMatchingTag guts tags = none := by
  induction tags with
  | nil => rfl
  | cons t rest ih =>
    rw [specLastMatchingTag, ih (fun x hx => h x (List.mem_cons_of_mem t hx))]
    simp [h t (List.mem_cons_self t rest)]

theorem specLastMatchingTag_present (guts : Guts) (tags : List String) (t : String)
    (h : specLastMatchingTag guts tags = some t) :
    t ∈ tags ∧ (lookupStr t guts).isSome := by
  induction tags with
  | nil => exact absurd h (by simp [specLastMatchingTag])
  | cons a rest ih =>
    rw [specLastMatchingTag] at h
    cases hr : specLastMatchingTag guts rest with
    | some u =>
      rw [hr] at h
      obtain ⟨hm, hs⟩ := ih (hr.trans (by injection h with hh; rw [hh]))
      exact ⟨List.mem_cons_of_mem a hm, hs⟩
    | none =>
      rw [hr] at h
      by_cases hp : (lookupStr a guts).isSome
      · rw [if_pos hp] at h
        injection h with hh
        subst hh
        exact ⟨List.mem_cons_self a rest, hp⟩
      · rw [if_neg hp] at h
        exact absurd h (by simp)

theorem specLastMatchingTag_isSome (guts : Guts) (tags : List String) (t0 : String)
    (hmem : t0 ∈ tags) (hp : (lookupStr t0 guts).isSome) :
    ∃ t, specLastMatchingTag guts tags = some t := by
  cases h : specLastMatchingTag guts tags with
  | some t => exact ⟨t, rfl⟩
  | none =>
    exfalso
    induction tags with
    | nil => cases hmem
    | cons a rest ih =>
      rw [specLastMatchingTag] at h
      cases hr : specLastMatchingTag guts rest with
      | some u => rw [hr] at h; exact absurd h (by simp)
      | none =>
        rw [hr] at h
        rcases List.mem_cons.mp hmem with h1 | h1
        · subst h1
          rw [if_pos hp] at h
          exact absurd h (by simp)
        · exact ih h1 hr

theorem dispatchTag_empty_discriminant (decode : Typ → Guts → Bool)
    (reg : List (String × Typ)) (types : List String) (tags : List String) (guts : Guts) :
    dispatchTag decode reg types tags guts "" =
      .fail (.missingDiscriminant (tags.headD "")) := by
  simp [dispatchTag]

theorem dispatchTag_nonempty (decode : Typ → Guts → Bool)
    (reg : List (String × Typ)) (types : List String) (tags : List String) (guts : Guts)
    (objectType : String) (h : objectType ≠ "") :
    dispatchTag decode reg types tags guts objectType =
      (match lookupStr objectType reg with
       | some valueType =>
           if decode valueType guts then .ok valueType guts else .fail .decodeFailed
       | none => .fail (.unknownDiscriminant objectType types)) := by
  rw [dispatchTag,
    if_neg (fun hh => h ((string_length_eq_zero_iff objectType).mp hh))]

theorem syncTypeUnmarshal_snd (decode : Typ → Guts → Bool) (r : TypeRegistry Typ)
    (p : Payload) :
    (SyncTypeRegistry.Unmarshal decode (syncOf r) p).snd =
      TypeRegistry.Unmarshal decode r p := by
  cases p with
  | malformed => by_cases h : r.Typetags.isEmpty <;>
      simp [SyncTypeRegistry.Unmarshal, TypeRegistry.Unmarshal, syncOf, h]
  | object guts =>
    by_cases h : r.Typetags.isEmpty
    · simp [SyncTypeRegistry.Unmarshal, TypeRegistry.Unmarshal, syncOf, effectiveTags, h]
    · simp [SyncTypeRegistry.Unmarshal, TypeRegistry.Unmarshal, syncOf, effectiveTags, h]

theorem syncPropertyUnmarshal_snd (decode : Typ → String → Bool) (r : PropertyRegistry Typ)
    (p : Payload) (order : List String) :
    (SyncPropertyRegistry.Unmarshal decode (syncOfProperty r) p order).snd =
      PropertyRegistry.Unmarshal decode r p order := by
  cases p <;> rfl

theorem propertyScan_no_match (decode : Typ → String → Bool) (reg : List (String × Typ))
    (types : List String) (guts : Guts) (order : List String)
    (h : ∀ k ∈ order, lookupStr k reg = none) :
    propertyScan decode reg types guts order =
      .fail (.missingDiscriminant (String.intercalate ", " types)) := by
  induction order with
  | nil => rfl
  | cons k rest ih =>
    rw [propertyScan, h k (List.mem_cons_self k rest)]
    exact ih (fun x hx => h x (List.mem_cons_of_mem k hx))

theorem propertyScan_unique_match (decode : Typ → String → Bool)
    (reg : List (String × Typ)) (types : List String) (guts : Guts)
    (k0 : String) (t : Typ) (v : String) (order : List String)
    (hmem : k0 ∈ order)
    (honly : ∀ k ∈ order, k ≠ k0 → lookupStr k reg = none)
    (hreg : lookupStr k0 reg = some t) (hv : lookupStr k0 guts = some v) :
    propertyScan decode reg types guts order =
      (if decode t v then .ok t v else .fail .decodeFailed) := by
  induction order with
  | nil => cases hmem
  | cons k rest ih =>
    by_cases hk : k = k0
    · subst hk
      rw [propertyScan, hreg, hv]
    · rw [propertyScan, honly k (List.mem_cons_self k rest) hk]
      exact ih (by rcases List.mem_cons.mp hmem with h1 | h1; exact absurd h1.symm hk; exact h1)
        (fun x hx => honly x (List.mem_cons_of_mem k hx))

theorem catalogWF_nil : CatalogWF ([] : List (String × Typ)) [] := by
  intro s
  simp [lookupStr]

theorem catalogWF_mapInsert (reg : List (String × Typ)) (types : List String)
    (hw : CatalogWF reg types) (n : String) (v : Typ) :
    CatalogWF (mapInsert reg n v) (types ++ [n]) := by
  intro s
  by_cases hsn : s = n
  · subst hsn
    simp [lookup_mapInsert_self]
  · rw [lookup_mapInsert_ne reg n v s hsn]
    constructor
    · intro hmem
      rcases List.mem_append.mp hmem with h1 | h1
      · exact (hw s).mp h1
      · exact absurd (List.mem_singleton.mp h1) hsn
    · intro hsome
      exact List.mem_append.mpr (Or.inl ((hw s).mpr hsome))

theorem catalogWF_addAll (reg : List (String × Typ)) (types : List String)
    (cs : List (TypeCarrier Typ)) (hw : CatalogWF reg types) :
    CatalogWF (addAll reg types cs).1 (addAll reg types cs).2 := by
  induction cs generalizing reg types with
  | nil => exact hw
  | cons c rest ih =>
    rw [addAll, List.foldl_cons]
    exact ih (mapInsert reg c.getType c.rtype) (types ++ [c.getType])
      (catalogWF_mapInsert reg types hw c.getType c.rtype)

theorem newTypeRegistry_wellFormed (tags : List String) :
    (NewTypeRegistry tags : TypeRegistry Typ).WellFormed :=
  catalogWF_nil

theorem typeRegistry_add_wellFormed (r : TypeRegistry Typ) (cs : List (TypeCarrier Typ))
    (hw : r.WellFormed) : (r.Add cs).WellFormed :=
  catalogWF_addAll r.registry r.types cs hw

/-- C1: tag-mode `Unmarshal` scans the configured tag names in configured
order over the parsed top-level fields, and whenever more than one
configured tag name is present in the payload, the last matching tag name
in scan order supplies the discriminant (a later match overwrites an
earlier one): the call behaves exactly like the dispatch on the trimmed
raw value of the last present configured tag. -/
theorem tagScan_lastMatchWins (decode : Typ → Guts → Bool) (r : TypeRegistry Typ)
    (guts : Guts)
    (hp : 1 < (r.Typetags.filter (fun t => (lookupStr t guts).isSome)).length) :
    ∃ t v, specLastMatchingTag guts r.Typetags = some t ∧ lookupStr t guts = some v ∧
      TypeRegistry.Unmarshal decode r (.object guts) =
        dispatchTag decode r.registry r.types r.Typetags guts (trimQuotes v) := by
  have htags : ¬r.Typetags.isEmpty := by
    intro hh
    rw [List.isEmpty_iff.mp hh] at hp
    simp at hp
  have heff : effectiveTags r.Typetags = r.Typetags := by
    rw [effectiveTags, if_neg htags]
  have hfil : (r.Typetags.filter (fun t => (lookupStr t guts).isSome)) ≠ [] := by
    intro hh
    rw [hh] at hp
    simp at hp
  obtain ⟨t0, ht0⟩ := List.exists_mem_of_ne_nil _ hfil
  have ht0m := List.mem_filter.mp ht0
  obtain ⟨t, ht⟩ := specLastMatchingTag_isSome guts r.Typetags t0 ht0m.1
    (by simpa using ht0m.2)
  obtain ⟨-, hs⟩ := specLastMatchingTag_present guts r.Typetags t ht
  obtain ⟨v, hv⟩ := Option.isSome_iff_exists.mp hs
  have hscan : scanTags guts r.Typetags = trimQuotes v := by
    rw [scanTags_eq_lastMatch, ht]
    simp [hv]
  refine ⟨t, v, ht, hv, ?_⟩
  show dispatchTag decode r.registry r.types (effectiveTags r.Typetags) guts
      (scanTags guts (effectiveTags r.Typetags)) = _
  rw [heff, hscan]

/-- Witness for C1 at a concrete registry and payload: tags `type` then
`kind` are both present, the later `kind` value is the one dispatched. -/
theorem tagScan_lastMatchWins_witness :
    (1 < ((["type", "kind"] : List String).filter
        (fun t => (lookupStr t [("type", "\"a\""), ("kind", "\"b\"")]).isSome)).length) ∧
    (∃ t v,
      specLastMatchingTag [("type", "\"a\""), ("kind", "\"b\"")] ["type", "kind"] = some t ∧
      lookupStr t [("type", "\"a\""), ("kind", "\"b\"")] = some v ∧
      TypeRegistry.Unmarshal (fun _ _ => true)
          ({ Typetags := ["type", "kind"], registry := [("b", 0)],
             types := ["b"] } : TypeRegistry Nat)
          (.object [("type", "\"a\""), ("kind", "\"b\"")]) =
        dispatchTag (fun _ _ => true) [("b", 0)] ["b"] ["type", "kind"]
          [("type", "\"a\""), ("kind", "\"b\"")] (trimQuotes v)) :=
  ⟨by decide, tagScan_lastMatchWins (fun _ _ => true)
    ({ Typetags := ["type", "kind"], registry := [("b", 0)],
       types := ["b"] } : TypeRegistry Nat)
    [("type", "\"a\""), ("kind", "\"b\"")] (by decide)⟩

/-- C2 counterexample: property-mode `Unmarshal` is not a function of the
payload and catalog alone.  On a payload whose two top-level fields `a`
and `b` are both registered discriminants, two legitimate Go map iteration
orders (both permutations of the parsed object's keys) give different
results, so a run may return either. -/
theorem propertyUnmarshal_order_dependent :
    (["a", "b"].Perm ([("a", "1"), ("b", "2")].map Prod.fst)) ∧
    (["b", "a"].Perm ([("a", "1"), ("b", "2")].map Prod.fst)) ∧
    PropertyRegistry.Unmarshal (fun _ _ => true)
        ({ registry := [("a", 0), ("b", 1)], types := ["a", "b"] } : PropertyRegistry Nat)
        (.object [("a", "1"), ("b", "2")]) ["a", "b"] ≠
      PropertyRegistry.Unmarshal (fun _ _ => true)
        ({ registry := [("a", 0), ("b", 1)], types := ["a", "b"] } : PropertyRegistry Nat)
        (.object [("a", "1"), ("b", "2")]) ["b", "a"] := by
  refine ⟨by decide, by decide, by decide⟩

theorem lookupStr_isSome_of_mem_keys {α : Type} (l : List (String × α)) (k : String)
    (h : k ∈ l.map Prod.fst) : ∃ v, lookupStr k l = some v := by
  induction l with
  | nil => cases h
  | cons p rest ih =>
    obtain ⟨a, b⟩ := p
    by_cases hk : k = a
    · exact ⟨b, by rw [lookupStr, if_pos hk]⟩
    · have hrest : k ∈ rest.map Prod.fst := by
        rcases List.mem_map.mp h with ⟨q, hq, hfst⟩
        rcases List.mem_cons.mp hq with hh | hh
        · subst hh
          exact absurd hfst.symm hk
        · exact List.mem_map.mpr ⟨q, hh, hfst⟩
      obtain ⟨v, hv⟩ := ih hrest
      exact ⟨v, by rw [lookupStr, if_neg hk]; exact hv⟩

/-- C2 amended: `Unmarshal` is a deterministic function of the payload,
the catalog contents, and (in property-mode) the map iteration order; when
at most one top-level field name matches a registered discriminant, the
property-mode result is moreover independent of the iteration order, for
the plain and the thread-safe registry alike. -/
theorem propertyUnmarshal_deterministic (decode : Typ → String → Bool)
    (r : PropertyRegistry Typ) (guts : Guts) (o1 o2 : List String)
    (h1 : o1.Perm (guts.map Prod.fst)) (h2 : o2.Perm (guts.map Prod.fst))
    (huniq : ((guts.map Prod.fst).filter
        (fun k => (lookupStr k r.registry).isSome)).length ≤ 1) :
    PropertyRegistry.Unmarshal decode r (.object guts) o1 =
      PropertyRegistry.Unmarshal decode r (.object guts) o2 ∧
    (SyncPropertyRegistry.Unmarshal decode (syncOfProperty r) (.object guts) o1).snd =
      (SyncPropertyRegistry.Unmarshal decode (syncOfProperty r) (.object guts) o2).snd := by
  have key : propertyScan decode r.registry r.types guts o1 =
      propertyScan decode r.registry r.types guts o2 := by
    cases hfil : (guts.map Prod.fst).filter
        (fun k => (lookupStr k r.registry).isSome) with
    | nil =>
      have hno : ∀ k ∈ guts.map Prod.fst, lookupStr k r.registry = none := by
        intro k hk
        have := List.filter_eq_nil_iff.mp hfil k hk
        simpa using this
      rw [propertyScan_no_match decode r.registry r.types guts o1
          (fun k hk => hno k (h1.mem_iff.mp hk)),
        propertyScan_no_match decode r.registry r.types guts o2
          (fun k hk => hno k (h2.mem_iff.mp hk))]
    | cons k0 l =>
      have hl : l = [] := by
        rw [hfil] at huniq
        simpa using huniq
      subst hl
      have hk0 : k0 ∈ (guts.map Prod.fst).filter
          (fun k => (lookupStr k r.registry).isSome) := by
        rw [hfil]; exact List.mem_singleton.mpr rfl
      have hk0m := List.mem_filter.mp hk0
      obtain ⟨t, ht⟩ := Option.isSome_iff_exists.mp (by simpa using hk0m.2)
      have hkeys : ∀ k ∈ guts.map Prod.fst, k ≠ k0 → lookupStr k r.registry = none := by
        intro k hk hne
        by_contra hcon
        have hsome : (lookupStr k r.registry).isSome := by
          cases hq : lookupStr k r.registry with
          | none => exact absurd hq hcon
          | some u => simp
        have : k ∈ (guts.map Prod.fst).filter
            (fun x => (lookupStr x r.registry).isSome) :=
          List.mem_filter.mpr ⟨hk, by simpa using hsome⟩
        rw [hfil] at this
        exact hne (List.mem_singleton.mp this)
      obtain ⟨v, hv⟩ := lookupStr_isSome_of_mem_keys guts k0 hk0m.1
      rw [propertyScan_unique_match decode r.registry r.types guts k0 t v o1
          (h1.mem_iff.mpr hk0m.1) (fun k hk => hkeys k (h1.mem_iff.mp hk)) ht hv,
        propertyScan_unique_match decode r.registry r.types guts k0 t v o2
          (h2.mem_iff.mpr hk0m.1) (fun k hk => hkeys k (h2.mem_iff.mp hk)) ht hv]
  exact ⟨key, by
    rw [syncPropertyUnmarshal_snd, syncPropertyUnmarshal_snd]
    exact key⟩

/-- Witness for the amended C2: a payload with a single matching field
decodes identically under two different iteration orders. -/
theorem propertyUnmarshal_deterministic_witness :
    ((["a", "c"] : List String).Perm ([("a", "1"), ("c", "2")].map Prod.fst)) ∧
    ((["c", "a"] : List String).Perm ([("a", "1"), ("c", "2")].map Prod.fst)) ∧
    ((([("a", "1"), ("c", "2")] : Guts).map Prod.fst).filter
        (fun k => (lookupStr k [("a", (0 : Nat)), ("b", 1)]).isSome)).length ≤ 1 ∧
    (PropertyRegistry.Unmarshal (fun _ _ => true)
        ({ registry := [("a", 0), ("b", 1)], types := ["a", "b"] } : PropertyRegistry Nat)
        (.object [("a", "1"), ("c", "2")]) ["a", "c"] =
      PropertyRegistry.Unmarshal (fun _ _ => true)
        ({ registry := [("a", 0), ("b", 1)], types := ["a", "b"] } : PropertyRegistry Nat)
        (.object [("a", "1"), ("c", "2")]) ["c", "a"] ∧
    (SyncPropertyRegistry.Unmarshal (fun _ _ => true)
        (syncOfProperty
          ({ registry := [("a", 0), ("b", 1)], types := ["a", "b"] } : PropertyRegistry Nat))
        (.object [("a", "1"), ("c", "2")]) ["a", "c"]).snd =
      (SyncPropertyRegistry.Unmarshal (fun _ _ => true)
        (syncOfProperty
          ({ registry := [("a", 0), ("b", 1)], types := ["a", "b"] } : PropertyRegistry Nat))
        (.object [("a", "1"), ("c", "2")]) ["c", "a"]).snd) :=
  ⟨by decide, by decide, by decide,
    propertyUnmarshal_deterministic (fun _ _ => true)
      ({ registry := [("a", 0), ("b", 1)], types := ["a", "b"] } : PropertyRegistry Nat)
      [("a", "1"), ("c", "2")] ["a", "c"] ["c", "a"]
      (by decide) (by decide) (by decide)⟩

/-- C3 counterexample: `Unmarshal` is not read-only on every registry.
`SyncTypeRegistry.Unmarshal` has a pointer receiver, and when no tag names
are configured it executes `registry.Typetags = []string{"type"}`, which
persists: after the call the registry state differs from the state before
(its configured tag names changed from `[]` to `["type"]`). -/
theorem syncTypeUnmarshal_not_readonly :
    (SyncTypeRegistry.Unmarshal (fun _ _ => true)
        ({ Typetags := [], registry := [("a", 0)], types := ["a"] } : SyncTypeRegistry Nat)
        (.object [("type", "\"a\"")])).fst ≠
      ({ Typetags := [], registry := [("a", 0)], types := ["a"] } : SyncTypeRegistry Nat) := by
  decide

/-- C3 amended: `Unmarshal` never touches the catalog mapping or the
ordered discriminant list of any registry; the plain (value-receiver)
registries and `SyncPropertyRegistry` leave the whole registry state
unchanged, and `SyncTypeRegistry.Unmarshal` leaves it unchanged whenever
at least one tag name is configured — but when none is configured it
persistently sets the configured tag names to `["type"]`. -/
theorem unmarshal_frame (decode : Typ → Guts → Bool) (decodeP : Typ → String → Bool)
    (r : SyncTypeRegistry Typ) (rp : SyncPropertyRegistry Typ) (p : Payload)
    (order : List String) :
    (SyncTypeRegistry.Unmarshal decode r p).fst.registry = r.registry ∧
    (SyncTypeRegistry.Unmarshal decode r p).fst.types = r.types ∧
    (r.Typetags ≠ [] → (SyncTypeRegistry.Unmarshal decode r p).fst = r) ∧
    (r.Typetags = [] → (SyncTypeRegistry.Unmarshal decode r p).fst.Typetags = ["type"]) ∧
    (SyncPropertyRegistry.Unmarshal decodeP rp p order).fst = rp := by
  have hfst : (SyncTypeRegistry.Unmarshal decode r p).fst =
      (if r.Typetags.isEmpty then { r with Typetags := ["type"] } else r) := by
    cases p <;> rfl
  have hfstP : (SyncPropertyRegistry.Unmarshal decodeP rp p order).fst = rp := by
    cases p <;> rfl
  refine ⟨?_, ?_, ?_, ?_, hfstP⟩
  · rw [hfst]
    by_cases h : r.Typetags.isEmpty <;> simp [h]
  · rw [hfst]
    by_cases h : r.Typetags.isEmpty <;> simp [h]
  · intro hne
    rw [hfst, if_neg (by simpa using hne)]
  · intro hnil
    rw [hfst, if_pos (by simpa using hnil)]

/-- Witness for the amended C3 at a concrete registry and payload. -/
theorem unmarshal_frame_witness :
    ((SyncTypeRegistry.Unmarshal (fun _ _ => true)
        ({ Typetags := ["kind"], registry := [("a", 0)], types := ["a"] } : SyncTypeRegistry Nat)
        (.object [("kind", "\"a\"")])).fst.registry = [("a", 0)]) ∧
    ((SyncTypeRegistry.Unmarshal (fun _ _ => true)
        ({ Typetags := ["kind"], registry := [("a", 0)], types := ["a"] } : SyncTypeRegistry Nat)
        (.object [("kind", "\"a\"")])).fst.types = ["a"]) ∧
    ((["kind"] : List String) ≠ [] → (SyncTypeRegistry.Unmarshal (fun _ _ => true)
        ({ Typetags := ["kind"], registry := [("a", 0)], types := ["a"] } : SyncTypeRegistry Nat)
        (.object [("kind", "\"a\"")])).fst =
      ({ Typetags := ["kind"], registry := [("a", 0)], types := ["a"] } : SyncTypeRegistry Nat)) ∧
    ((["kind"] : List String) = [] → (SyncTypeRegistry.Unmarshal (fun _ _ => true)
        ({ Typetags := ["kind"], registry := [("a", 0)], types := ["a"] } : SyncTypeRegistry Nat)
        (.object [("kind", "\"a\"")])).fst.Typetags = ["type"]) ∧
    ((SyncPropertyRegistry.Unmarshal (fun _ _ => true)
        ({ registry := [("a", 0)], types := ["a"] } : SyncPropertyRegistry Nat)
        (.object [("kind", "\"a\"")]) ["kind"]).fst =
      ({ registry := [("a", 0)], types := ["a"] } : SyncPropertyRegistry Nat)) :=
  unmarshal_frame (fun _ _ => true) (fun _ _ => true)
    ({ Typetags := ["kind"], registry := [("a", 0)], types := ["a"] } : SyncTypeRegistry Nat)
    ({ registry := [("a", 0)], types := ["a"] } : SyncPropertyRegistry Nat)
    (.object [("kind", "\"a\"")]) ["kind"]

/-- C4: in tag-mode, whenever the scan extracts a non-empty discriminant
that is not registered, `Unmarshal` returns the `UnknownDiscriminant`
error carrying the attempted discriminant together with the ordered
`types` list — which, on every well-formed registry, mentions exactly the
currently-registered discriminants — and never `MissingDiscriminant` and
never a success; the thread-safe variant returns the same result. -/
theorem tagUnmarshal_unknownDiscriminant (decode : Typ → Guts → Bool)
    (r : TypeRegistry Typ) (hw : r.WellFormed) (guts : Guts) (d : String)
    (hscan : scanTags guts (effectiveTags r.Typetags) = d) (hne : d ≠ "")
    (hreg : lookupStr d r.registry = none) :
    TypeRegistry.Unmarshal decode r (.object guts) =
      .fail (.unknownDiscriminant d r.types) ∧
    (∀ s, s ∈ r.types ↔ (lookupStr s r.registry).isSome) ∧
    (SyncTypeRegistry.Unmarshal decode (syncOf r) (.object guts)).snd =
      .fail (.unknownDiscriminant d r.types) := by
  have hmain : TypeRegistry.Unmarshal decode r (.object guts) =
      .fail (.unknownDiscriminant d r.types) := by
    show dispatchTag decode r.registry r.types (effectiveTags r.Typetags) guts
        (scanTags guts (effectiveTags r.Typetags)) = _
    rw [hscan, dispatchTag_nonempty decode r.registry r.types (effectiveTags r.Typetags)
      guts d hne, hreg]
  exact ⟨hmain, hw, by rw [syncTypeUnmarshal_snd]; exact hmain⟩

/-- Witness for C4: payload `{"type":"something3"}` against a registry
holding `something1` and `something2`. -/
theorem tagUnmarshal_unknownDiscriminant_witness :
    (({ Typetags := [], registry := [("something1", 1), ("something2", 2)],
        types := ["something1", "something2"] } : TypeRegistry Nat).WellFormed) ∧
    (scanTags [("type", "\"something3\"")]
      (effectiveTags ([] : List String)) = "something3") ∧
    ("something3" ≠ "") ∧
    (lookupStr "something3"
      [("something1", (1 : Nat)), ("something2", 2)] = none) ∧
    (TypeRegistry.Unmarshal (fun _ _ => true)
        ({ Typetags := [], registry := [("something1", 1), ("something2", 2)],
           types := ["something1", "something2"] } : TypeRegistry Nat)
        (.object [("type", "\"something3\"")]) =
      .fail (.unknownDiscriminant "something3" ["something1", "something2"]) ∧
    (∀ s, s ∈ ["something1", "something2"] ↔
      (lookupStr s [("something1", (1 : Nat)), ("something2", 2)]).isSome) ∧
    (SyncTypeRegistry.Unmarshal (fun _ _ => true)
        (syncOf
          ({ Typetags := [], registry := [("something1", 1), ("something2", 2)],
             types := ["something1", "something2"] } : TypeRegistry Nat))
        (.object [("type", "\"something3\"")])).snd =
      .fail (.unknownDiscriminant "something3" ["something1", "something2"])) :=
  have hw : ({ Typetags := [], registry := [("something1", 1), ("something2", 2)],
               types := ["something1", "something2"] } : TypeRegistry Nat).WellFormed := by
    intro s
    constructor
    · intro hmem
      rcases List.mem_cons.mp hmem with h1 | h1
      · subst h1; decide
      · rw [List.mem_singleton.mp h1]; decide
    · intro hsome
      by_cases h1 : s = "something1"
      · subst h1; decide
      · by_cases h2 : s = "something2"
        · subst h2; decide
        · exfalso
          rw [lookupStr, if_neg h1, lookupStr, if_neg h2, lookupStr] at hsome
          simp at hsome
  ⟨hw, by decide, by decide, by decide,
    tagUnmarshal_unknownDiscriminant (fun _ _ => true)
      ({ Typetags := [], registry := [("something1", 1), ("something2", 2)],
         types := ["something1", "something2"] } : TypeRegistry Nat)
      hw [("type", "\"something3\"")] "something3" (by decide) (by decide) (by decide)⟩

/-- C5: registering the same discriminant a second time overwrites the
descriptor — `Size` does not increase, a tag-mode decode of a payload
carrying that discriminant afterwards produces an instance of the second
registered type, and the ordered discriminant list gains an entry even on
overwrite; likewise for the property-mode registry. -/
theorem add_overwrite_semantics (decode : Typ → Guts → Bool)
    (decodeP : Typ → String → Bool) (r : TypeRegistry Typ) (rp : PropertyRegistry Typ)
    (d : String) (t1 t2 : Typ) (guts : Guts) (v : String)
    (hscan : scanTags guts (effectiveTags r.Typetags) = d) (hne : d ≠ "")
    (hdec : decode t2 guts = true) (hdecP : decodeP t2 v = true) :
    ((r.Add [⟨d, t1⟩]).Add [⟨d, t2⟩]).Size = (r.Add [⟨d, t1⟩]).Size ∧
    ((r.Add [⟨d, t1⟩]).Add [⟨d, t2⟩]).types = (r.Add [⟨d, t1⟩]).types ++ [d] ∧
    TypeRegistry.Unmarshal decode ((r.Add [⟨d, t1⟩]).Add [⟨d, t2⟩]) (.object guts) =
      .ok t2 guts ∧
    ((rp.Add [⟨d, t1⟩]).Add [⟨d, t2⟩]).Size = (rp.Add [⟨d, t1⟩]).Size ∧
    ((rp.Add [⟨d, t1⟩]).Add [⟨d, t2⟩]).types = (rp.Add [⟨d, t1⟩]).types ++ [d] ∧
    PropertyRegistry.Unmarshal decodeP ((rp.Add [⟨d, t1⟩]).Add [⟨d, t2⟩])
      (.object [(d, v)]) [d] = .ok t2 v := by
  have hr1 : (r.Add [⟨d, t1⟩]).registry = mapInsert r.registry d t1 := rfl
  have hr2 : ((r.Add [⟨d, t1⟩]).Add [⟨d, t2⟩]).registry =
      mapInsert (mapInsert r.registry d t1) d t2 := rfl
  have hsome : (lookupStr d (mapInsert r.registry d t1)).isSome := by
    rw [lookup_mapInsert_self]
    rfl
  refine ⟨?_, rfl, ?_, ?_, rfl, ?_⟩
  · show (mapInsert (mapInsert r.registry d t1) d t2).length =
      (mapInsert r.registry d t1).length
    exact length_mapInsert_of_isSome (mapInsert r.registry d t1) d t2 hsome
  · have htags : ((r.Add [⟨d, t1⟩]).Add [⟨d, t2⟩]).Typetags = r.Typetags := rfl
    show dispatchTag decode ((r.Add [⟨d, t1⟩]).Add [⟨d, t2⟩]).registry
        ((r.Add [⟨d, t1⟩]).Add [⟨d, t2⟩]).types
        (effectiveTags ((r.Add [⟨d, t1⟩]).Add [⟨d, t2⟩]).Typetags) guts
        (scanTags guts (effectiveTags ((r.Add [⟨d, t1⟩]).Add [⟨d, t2⟩]).Typetags)) =
      .ok t2 guts
    rw [htags, hscan, dispatchTag_nonempty _ _ _ _ _ _ hne, hr2,
      lookup_mapInsert_self]
    simp [hdec]
  · show (mapInsert (mapInsert rp.registry d t1) d t2).length =
      (mapInsert rp.registry d t1).length
    exact length_mapInsert_of_isSome (mapInsert rp.registry d t1) d t2
      (by rw [lookup_mapInsert_self]; rfl)
  · show propertyScan decodeP ((rp.Add [⟨d, t1⟩]).Add [⟨d, t2⟩]).registry
        ((rp.Add [⟨d, t1⟩]).Add [⟨d, t2⟩]).types [(d, v)] [d] = .ok t2 v
    have hrp2 : ((rp.Add [⟨d, t1⟩]).Add [⟨d, t2⟩]).registry =
        mapInsert (mapInsert rp.registry d t1) d t2 := rfl
    rw [propertyScan, hrp2, lookup_mapInsert_self]
    simp [lookupStr, hdecP]

/-- Witness for C5 at concrete data: `d = "x"` registered twice with
descriptors `1` then `2`. -/
theorem add_overwrite_semantics_witness :
    (scanTags [("type", "\"x\"")] (effectiveTags ([] : List String)) = "x") ∧
    ("x" ≠ "") ∧
    ((((NewTypeRegistry [] : TypeRegistry Nat).Add [⟨"x", 1⟩]).Add [⟨"x", 2⟩]).Size =
      ((NewTypeRegistry [] : TypeRegistry Nat).Add [⟨"x", 1⟩]).Size ∧
    (((NewTypeRegistry [] : TypeRegistry Nat).Add [⟨"x", 1⟩]).Add [⟨"x", 2⟩]).types =
      ((NewTypeRegistry [] : TypeRegistry Nat).Add [⟨"x", 1⟩]).types ++ ["x"] ∧
    TypeRegistry.Unmarshal (fun _ _ => true)
        (((NewTypeRegistry [] : TypeRegistry Nat).Add [⟨"x", 1⟩]).Add [⟨"x", 2⟩])
        (.object [("type", "\"x\"")]) = .ok 2 [("type", "\"x\"")] ∧
    (((NewPropertyRegistry : PropertyRegistry Nat).Add [⟨"x", 1⟩]).Add [⟨"x", 2⟩]).Size =
      ((NewPropertyRegistry : PropertyRegistry Nat).Add [⟨"x", 1⟩]).Size ∧
    (((NewPropertyRegistry : PropertyRegistry Nat).Add [⟨"x", 1⟩]).Add [⟨"x", 2⟩]).types =
      ((NewPropertyRegistry : PropertyRegistry Nat).Add [⟨"x", 1⟩]).types ++ ["x"] ∧
    PropertyRegistry.Unmarshal (fun _ _ => true)
        (((NewPropertyRegistry : PropertyRegistry Nat).Add [⟨"x", 1⟩]).Add [⟨"x", 2⟩])
        (.object [("x", "{}")]) ["x"] = .ok 2 "{}") :=
  ⟨by decide, by decide,
    add_overwrite_semantics (fun _ _ => true) (fun _ _ => true)
      (NewTypeRegistry [] : TypeRegistry Nat) (NewPropertyRegistry : PropertyRegistry Nat)
      "x" 1 2 [("type", "\"x\"")] "{}" (by decide) (by decide) (by decide) (by decide)⟩

/-- C6: in tag-mode, when the extracted discriminant is registered,
`Unmarshal` decodes the entire original payload — the whole parsed object,
tag field included — into a freshly instantiated variant of the matched
descriptor and returns that instance; the thread-safe variant behaves
identically. -/
theorem tagUnmarshal_whole_payload (decode : Typ → Guts → Bool) (r : TypeRegistry Typ)
    (guts : Guts) (d : String) (t : Typ)
    (hscan : scanTags guts (effectiveTags r.Typetags) = d) (hne : d ≠ "")
    (hreg : lookupStr d r.registry = some t) (hdec : decode t guts = true) :
    TypeRegistry.Unmarshal decode r (.object guts) = .ok t guts ∧
    (SyncTypeRegistry.Unmarshal decode (syncOf r) (.object guts)).snd = .ok t guts := by
  have hmain : TypeRegistry.Unmarshal decode r (.object guts) = .ok t guts := by
    show dispatchTag decode r.registry r.types (effectiveTags r.Typetags) guts
        (scanTags guts (effectiveTags r.Typetags)) = _
    rw [hscan, dispatchTag_nonempty decode r.registry r.types (effectiveTags r.Typetags)
      guts d hne, hreg]
    simp [hdec]
  exact ⟨hmain, by rw [syncTypeUnmarshal_snd]; exact hmain⟩

/-- Witness for C6: the returned instance is decoded from the whole
original object, including the `type` field itself. -/
theorem tagUnmarshal_whole_payload_witness :
    (scanTags [("type", "\"a\""), ("data", "\"d\"")]
      (effectiveTags ([] : List String)) = "a") ∧
    ("a" ≠ "") ∧
    (lookupStr "a" [("a", (7 : Nat))] = some 7) ∧
    (TypeRegistry.Unmarshal (fun _ _ => true)
        ({ Typetags := [], registry := [("a", 7)], types := ["a"] } : TypeRegistry Nat)
        (.object [("type", "\"a\""), ("data", "\"d\"")]) =
      .ok 7 [("type", "\"a\""), ("data", "\"d\"")] ∧
    (SyncTypeRegistry.Unmarshal (fun _ _ => true)
        (syncOf
          ({ Typetags := [], registry := [("a", 7)], types := ["a"] } : TypeRegistry Nat))
        (.object [("type", "\"a\""), ("data", "\"d\"")])).snd =
      .ok 7 [("type", "\"a\""), ("data", "\"d\"")]) :=
  ⟨by decide, by decide, by decide,
    tagUnmarshal_whole_payload (fun _ _ => true)
      ({ Typetags := [], registry := [("a", 7)], types := ["a"] } : TypeRegistry Nat)
      [("type", "\"a\""), ("data", "\"d\"")] "a" 7
      (by decide) (by decide) (by decide) (by decide)⟩

/-- C7: in property-mode, when no top-level field name of a well-formed
payload matches a registered discriminant, `Unmarshal` returns the
`MissingDiscriminant` error listing all known discriminants, comma-joined,
in registration order (the ordered `types` list); same for the
thread-safe variant. -/
theorem propertyUnmarshal_missingDiscriminant (decode : Typ → String → Bool)
    (r : PropertyRegistry Typ) (guts : Guts) (order : List String)
    (horder : order.Perm (guts.map Prod.fst))
    (h : ∀ k ∈ guts.map Prod.fst, lookupStr k r.registry = none) :
    PropertyRegistry.Unmarshal decode r (.object guts) order =
      .fail (.missingDiscriminant (String.intercalate ", " r.types)) ∧
    (SyncPropertyRegistry.Unmarshal decode (syncOfProperty r) (.object guts) order).snd =
      .fail (.missingDiscriminant (String.intercalate ", " r.types)) := by
  have hmain : PropertyRegistry.Unmarshal decode r (.object guts) order =
      .fail (.missingDiscriminant (String.intercalate ", " r.types)) :=
    propertyScan_no_match decode r.registry r.types guts order
      (fun k hk => h k (horder.mem_iff.mp hk))
  exact ⟨hmain, by rw [syncPropertyUnmarshal_snd]; exact hmain⟩

/-- Witness for C7: payload `{"something3":{}}` against a registry holding
`something1` and `something2`. -/
theorem propertyUnmarshal_missingDiscriminant_witness :
    ((["something3"] : List String).Perm ([("something3", "{}")].map Prod.fst)) ∧
    (∀ k ∈ ([("something3", "{}")] : Guts).map Prod.fst,
      lookupStr k [("something1", (1 : Nat)), ("something2", 2)] = none) ∧
    (PropertyRegistry.Unmarshal (fun _ _ => true)
        ({ registry := [("something1", 1), ("something2", 2)],
           types := ["something1", "something2"] } : PropertyRegistry Nat)
        (.object [("something3", "{}")]) ["something3"] =
      .fail (.missingDiscriminant "something1, something2") ∧
    (SyncPropertyRegistry.Unmarshal (fun _ _ => true)
        (syncOfProperty
          ({ registry := [("something1", 1), ("something2", 2)],
             types := ["something1", "something2"] } : PropertyRegistry Nat))
        (.object [("something3", "{}")]) ["something3"]).snd =
      .fail (.missingDiscriminant "something1, something2")) :=
  ⟨by decide, by decide,
    propertyUnmarshal_missingDiscriminant (fun _ _ => true)
      ({ registry := [("something1", 1), ("something2", 2)],
         types := ["something1", "something2"] } : PropertyRegistry Nat)
      [("something3", "{}")] ["something3"] (by decide) (by decide)⟩

/-- C8: in tag-mode, when no effective tag name occurs among the payload's
top-level fields, `Unmarshal` returns the `MissingDiscriminant` error
referencing the first configured tag name; same for the thread-safe
variant. -/
theorem tagUnmarshal_missing_tag (decode : Typ → Guts → Bool) (r : TypeRegistry Typ)
    (guts : Guts)
    (h : ∀ t ∈ effectiveTags r.Typetags, lookupStr t guts = none) :
    TypeRegistry.Unmarshal decode r (.object guts) =
      .fail (.missingDiscriminant ((effectiveTags r.Typetags).headD "")) ∧
    (SyncTypeRegistry.Unmarshal decode (syncOf r) (.object guts)).snd =
      .fail (.missingDiscriminant ((effectiveTags r.Typetags).headD "")) := by
  have hscan : scanTags guts (effectiveTags r.Typetags) = "" := by
    rw [scanTags_eq_lastMatch, specLastMatchingTag_eq_none guts _ h]
  have hmain : TypeRegistry.Unmarshal decode r (.object guts) =
      .fail (.missingDiscriminant ((effectiveTags r.Typetags).headD "")) := by
    show dispatchTag decode r.registry r.types (effectiveTags r.Typetags) guts
        (scanTags guts (effectiveTags r.Typetags)) = _
    rw [hscan]
    exact dispatchTag_empty_discriminant decode r.registry r.types
      (effectiveTags r.Typetags) guts
  exact ⟨hmain, by rw [syncTypeUnmarshal_snd]; exact hmain⟩

/-- Witness for C8: payload `{"data":"data"}` has no `type` field. -/
theorem tagUnmarshal_missing_tag_witness :
    (∀ t ∈ effectiveTags ([] : List String),
      lookupStr t [("data", "\"data\"")] = none) ∧
    (TypeRegistry.Unmarshal (fun _ _ => true)
        ({ Typetags := [], registry := [("a", 1)], types := ["a"] } : TypeRegistry Nat)
        (.object [("data", "\"data\"")]) =
      .fail (.missingDiscriminant ((effectiveTags ([] : List String)).headD "")) ∧
    (SyncTypeRegistry.Unmarshal (fun _ _ => true)
        (syncOf
          ({ Typetags := [], registry := [("a", 1)], types := ["a"] } : TypeRegistry Nat))
        (.object [("data", "\"data\"")])).snd =
      .fail (.missingDiscriminant ((effectiveTags ([] : List String)).headD ""))) :=
  ⟨by decide,
    tagUnmarshal_missing_tag (fun _ _ => true)
      ({ Typetags := [], registry := [("a", 1)], types := ["a"] } : TypeRegistry Nat)
      [("data", "\"data\"")] (by decide)⟩

/-- C9: a tag-mode registry with no configured tag names behaves, on every
payload, exactly like the same registry configured with the single default
tag name `type`; same for the thread-safe variant's result. -/
theorem tagUnmarshal_default_tag (decode : Typ → Guts → Bool) (r : TypeRegistry Typ)
    (h : r.Typetags = []) (p : Payload) :
    TypeRegistry.Unmarshal decode r p =
      TypeRegistry.Unmarshal decode { r with Typetags := ["type"] } p ∧
    (SyncTypeRegistry.Unmarshal decode (syncOf r) p).snd =
      (SyncTypeRegistry.Unmarshal decode (syncOf { r with Typetags := ["type"] }) p).snd := by
  have heq : effectiveTags r.Typetags = effectiveTags ["type"] := by
    rw [h]
    rfl
  have hmain : TypeRegistry.Unmarshal decode r p =
      TypeRegistry.Unmarshal decode { r with Typetags := ["type"] } p := by
    cases p with
    | malformed => rfl
    | object guts =>
      show dispatchTag decode r.registry r.types (effectiveTags r.Typetags) guts
          (scanTags guts (effectiveTags r.Typetags)) =
        dispatchTag decode r.registry r.types (effectiveTags ["type"]) guts
          (scanTags guts (effectiveTags ["type"]))
      rw [heq]
  exact ⟨hmain, by rw [syncTypeUnmarshal_snd, syncTypeUnmarshal_snd]; exact hmain⟩

/-- Witness for C9 at a concrete registry and payload. -/
theorem tagUnmarshal_default_tag_witness :
    (([] : List String) = []) ∧
    (TypeRegistry.Unmarshal (fun _ _ => true)
        ({ Typetags := [], registry := [("a", 1)], types := ["a"] } : TypeRegistry Nat)
        (.object [("type", "\"a\"")]) =
      TypeRegistry.Unmarshal (fun _ _ => true)
        ({ Typetags := ["type"], registry := [("a", 1)], types := ["a"] } : TypeRegistry Nat)
        (.object [("type", "\"a\"")]) ∧
    (SyncTypeRegistry.Unmarshal (fun _ _ => true)
        (syncOf
          ({ Typetags := [], registry := [("a", 1)], types := ["a"] } : TypeRegistry Nat))
        (.object [("type", "\"a\"")])).snd =
      (SyncTypeRegistry.Unmarshal (fun _ _ => true)
        (syncOf
          ({ Typetags := ["type"], registry := [("a", 1)], types := ["a"] } : TypeRegistry Nat))
        (.object [("type", "\"a\"")])).snd) :=
  ⟨rfl,
    tagUnmarshal_default_tag (fun _ _ => true)
      ({ Typetags := [], registry := [("a", 1)], types := ["a"] } : TypeRegistry Nat)
      rfl (.object [("type", "\"a\"")])⟩

/-- C10: in tag-mode, when the last matching configured tag is present but
its raw value reduces to the empty string after stripping enclosing double
quotes, `Unmarshal` treats the discriminant as absent and returns the
`MissingDiscriminant` error referencing the first configured tag name —
never `UnknownDiscriminant`; same for the thread-safe variant. -/
theorem tagUnmarshal_empty_trimmed_value (decode : Typ → Guts → Bool)
    (r : TypeRegistry Typ) (guts : Guts) (t v : String)
    (ht : specLastMatchingTag guts (effectiveTags r.Typetags) = some t)
    (hv : lookupStr t guts = some v) (he : trimQuotes v = "") :
    TypeRegistry.Unmarshal decode r (.object guts) =
      .fail (.missingDiscriminant ((effectiveTags r.Typetags).headD "")) ∧
    (SyncTypeRegistry.Unmarshal decode (syncOf r) (.object guts)).snd =
      .fail (.missingDiscriminant ((effectiveTags r.Typetags).headD "")) := by
  have hscan : scanTags guts (effectiveTags r.Typetags) = "" := by
    rw [scanTags_eq_lastMatch, ht]
    simp [hv, he]
  have hmain : TypeRegistry.Unmarshal decode r (.object guts) =
      .fail (.missingDiscriminant ((effectiveTags r.Typetags).headD "")) := by
    show dispatchTag decode r.registry r.types (effectiveTags r.Typetags) guts
        (scanTags guts (effectiveTags r.Typetags)) = _
    rw [hscan]
    exact dispatchTag_empty_discriminant decode r.registry r.types
      (effectiveTags r.Typetags) guts
  exact ⟨hmain, by rw [syncTypeUnmarshal_snd]; exact hmain⟩

/-- Witness for C10: payload `{"type":""}` (raw value `""`, which trims to
the empty string) yields `MissingDiscriminant`, not `UnknownDiscriminant`. -/
theorem tagUnmarshal_empty_trimmed_value_witness :
    (specLastMatchingTag [("type", "\"\"")]
      (effectiveTags ([] : List String)) = some "type") ∧
    (lookupStr "type" [("type", "\"\"")] = some "\"\"") ∧
    (trimQuotes "\"\"" = "") ∧
    (TypeRegistry.Unmarshal (fun _ _ => true)
        ({ Typetags := [], registry := [("a", 1)], types := ["a"] } : TypeRegistry Nat)
        (.object [("type", "\"\"")]) =
      .fail (.missingDiscriminant ((effectiveTags ([] : List String)).headD "")) ∧
    (SyncTypeRegistry.Unmarshal (fun _ _ => true)
        (syncOf
          ({ Typetags := [], registry := [("a", 1)], types := ["a"] } : TypeRegistry Nat))
        (.object [("type", "\"\"")])).snd =
      .fail (.missingDiscriminant ((effectiveTags ([] : List String)).headD ""))) :=
  ⟨by decide, by decide, by decide,
    tagUnmarshal_empty_trimmed_value (fun _ _ => true)
      ({ Typetags := [], registry := [("a", 1)], types := ["a"] } : TypeRegistry Nat)
      [("type", "\"\"")] "type" "\"\"" (by decide) (by decide) (by decide)⟩
